import Mathlib

/-!
# Verification of the EDK2 database generators

A shallow embedding of the instanced-INF table generator
(edk2toollib/database/tables/instanced_inf_table.py) and the Edk2DB
orchestrator (edk2toollib/database/edk2_db.py), with theorems checking the
natural-language specification against the code.

Conventions of the embedding:
* Python exceptions become an explicit error type PyErr; a function that can
  raise returns Except PyErr or a pair with an Option PyErr (when Python
  mutates state before raising).
* The external INF parser (InfParser) is modelled as a map from an INF path
  to its parsed view (InfDecl); the external DSC parser's outputs
  (Components, ScopedLibraryDict, per-component override blocks) are inputs.
* Python dicts keyed by strings are association lists looked up with find?.
* pathlib.PurePosixPath normalization (as_posix, name, is_absolute) is
  embedded directly for POSIX paths.
* The unbounded recursion of _parse_inf_recursively is embedded with an
  explicit fuel parameter; running out of fuel is a distinguished error that
  no Python run produces, and every theorem only constrains runs that
  return normally.
-/

namespace Edk2

/-- Python exceptions that the modelled code can raise, plus the fuel
marker used by the embedding of the unbounded recursion. -/
inductive PyErr where
  | keyError (k : String)
  | typeError
  | valueError
  | runtimeError (msg : String)
  | outOfFuel
deriving DecidableEq, Repr

/-! ## String primitives

Python's str.split(sep) with a one-character separator, str.lower() /
str.upper() (the strings involved are ASCII) and the string joins used by
pathlib are embedded as structural recursions over the character list, so
that every definition evaluates inside the kernel. -/

/-- Helper for split_on_char: the accumulator holds the current field in
reverse. -/
def split_chars (sep : Char) : List Char → List Char → List (List Char)
  | [], acc => [acc.reverse]
  | c :: cs, acc =>
    if c = sep then acc.reverse :: split_chars sep cs []
    else split_chars sep cs (c :: acc)

/-- Python's s.split(sep) for a one-character separator (also
String.splitOn for such separators): "" splits to [""], separators at the
ends produce empty fields. -/
def split_on_char (sep : Char) (s : String) : List String :=
  (split_chars sep s.data []).map String.mk

/-- Join a list of strings with "/" between them. -/
def join_slash : List String → String
  | [] => ""
  | [x] => x
  | x :: y :: xs => x ++ "/" ++ join_slash (y :: xs)

/-- Python's s.lower() (ASCII). -/
def lower_string (s : String) : String :=
  String.mk (s.data.map Char.toLower)

/-- Python's s.upper() (ASCII). -/
def upper_string (s : String) : String :=
  String.mk (s.data.map Char.toUpper)

/-! ## pathlib embedding (PurePosixPath) -/

/-- The non-root components of a POSIX path: split on the separator and
drop empty components and ".", as pathlib's parser does. -/
def posix_parts (p : String) : List String :=
  (split_on_char '/' p).filter (fun s => s ≠ "" && s ≠ ".")

/-- The root of a POSIX path: "//" (kept distinct by POSIX), "/" or "". -/
def posix_root (p : String) : String :=
  if p.data.take 2 = ['/', '/'] && p.data.take 3 ≠ ['/', '/', '/'] then "//"
  else if p.data.take 1 = ['/'] then "/"
  else ""

/-- Path(p).as_posix(): the normalized POSIX form ("." for an empty path). -/
def as_posix (p : String) : String :=
  let core := join_slash (posix_parts p)
  let root := posix_root p
  if root = "" && core = "" then "." else root ++ core

/-- Path(p).name: the final path component, "" when there is none. -/
def path_name (p : String) : String :=
  (posix_parts p).getLastD ""

/-- Path(p).is_absolute() on POSIX. -/
def is_absolute (p : String) : Bool :=
  p.data.take 1 = ['/']

/-! ## Structured document view (external collaborators) -/

/-- The view of one parsed INF file that _parse_inf_recursively consumes:
InfParser's Dict entries LIBRARY_CLASS / MODULE_TYPE / BASE_NAME /
FILE_GUID (absent keys are none), get_libraries(self.arch) (the
library-class names needed under the run's architectures), Sources and
PcdsUsed. -/
structure InfDecl where
  library_class : Option String
  module_type : Option String
  base_name : Option String
  file_guid : Option String
  libraries : List String
  sources : List String
  pcds : List String
deriving DecidableEq, Repr

/-- A per-component override block from the DSC's [Components] section:
the class-to-instance overrides plus the list under the NULL key (always
present in the DSC parser's output). -/
structure OverrideDict where
  classes : List (String × String)
  null_libs : List String
deriving DecidableEq, Repr

/-- One entry of DscParser.Components: (inf, scope, overrides). -/
structure Component where
  inf : String
  scope : String
  overrides : OverrideDict
deriving DecidableEq, Repr

/-- The record built for each visited INF by _parse_inf_recursively
(the PROTOCOLS_USED / GUIDS_USED / PPIS_USED fields are the constant []
in the source and are omitted). COMPONENT is an Option because
_build_inf_table later rewrites it to None for component rows. -/
structure Entry where
  DSC : String
  PATH : String
  GUID : String
  NAME : String
  COMPONENT : Option String
  MODULE_TYPE : String
  ARCH : String
  SOURCES_USED : List String
  LIBRARIES_USED : List String
  PCDS_USED : List String
deriving DecidableEq, Repr

/-- Python dict lookup d.get(k) over an association list. -/
def dict_get (d : List (String × String)) (k : String) : Option String :=
  (d.find? (fun p => p.1 == k)).map (fun p => p.2)

/-- lib.split(" ")[0].lower(): the key a needed library-class name is
normalized to before resolution (line 160 of instanced_inf_table.py). -/
def lib_class_key (lib : String) : String :=
  lower_string ((split_on_char ' ' lib).headD "")

/-- The message of the RuntimeError raised when no scope level resolves a
library class (line 231 of instanced_inf_table.py). -/
def lib_error_msg (library_class_name scope dsc : String) : String :=
  "Cannot find library class [" ++ library_class_name ++ "] for scope [" ++
    scope ++ "] when evaluating " ++ dsc

/-- InstancedInfTable._lib_to_instance: resolve a library-class name for a
scope "ARCH.MODULETYPE" through the priority chain: per-component override,
then "ARCH.MODULETYPE.cls", "common.MODULETYPE.cls", "ARCH.cls",
"common.cls" in the scoped library dict; first match wins, no match is a
RuntimeError. A scope that does not split into exactly two fields makes
the Python tuple unpacking raise (ValueError). -/
def lib_to_instance (dsc : String) (library_class_name scope : String)
    (library_dict : List (String × String)) (override_dict : OverrideDict) :
    Except PyErr String :=
  match split_on_char '.' scope with
  | [arch, module] =>
    match dict_get override_dict.classes library_class_name with
    | some inst => .ok inst
    | none =>
      match dict_get library_dict (arch ++ "." ++ module ++ "." ++ library_class_name) with
      | some inst => .ok inst
      | none =>
        match dict_get library_dict ("common." ++ module ++ "." ++ library_class_name) with
        | some inst => .ok inst
        | none =>
          match dict_get library_dict (arch ++ "." ++ library_class_name) with
          | some inst => .ok inst
          | none =>
            match dict_get library_dict ("common." ++ library_class_name) with
            | some inst => .ok inst
            | none =>
              .error (.runtimeError (lib_error_msg library_class_name scope dsc))
  | _ => .error .valueError

/-- The loop building library_instances in _parse_inf_recursively: resolve
each needed class name (normalized by lib_class_key) through the priority
chain, in order, appending the instances; the first failure propagates. -/
def resolve_classes (dsc scope : String) (library_dict : List (String × String))
    (override_dict : OverrideDict) : List String → Except PyErr (List String)
  | [] => .ok []
  | lib :: rest =>
    match lib_to_instance dsc (lib_class_key lib) scope library_dict override_dict with
    | .error e => .error e
    | .ok inst =>
      match resolve_classes dsc scope library_dict override_dict rest with
      | .error e => .error e
      | .ok more => .ok (inst :: more)

/-- The loop over filter(lambda lib: lib not in visited, library_instances)
in _parse_inf_recursively. Python's filter is lazy, so each library is
tested against the visited list as mutated by the earlier iterations;
the recursion (parseF) threads the visited list through. -/
def visit_loop (parseF : String → List String → Except PyErr (List Entry × List String)) :
    List String → List Entry → List String → Except PyErr (List Entry × List String)
  | [], acc, visited => .ok (acc, visited)
  | l :: rest, acc, visited =>
    if l ∈ visited then
      visit_loop parseF rest acc visited
    else
      match parseF l visited with
      | .error e => .error e
      | .ok (rows, visited') => visit_loop parseF rest (acc ++ rows) visited'

/-- InstancedInfTable._parse_inf_recursively: append inf to visited, parse
its INF view, resolve every needed library class through the priority
chain, append the NULL override libraries other than inf itself, recurse
into every resolved library not yet visited (children first), then append
the record for inf itself. Returns the flat record list together with the
final visited list (Python mutates the shared list in place). -/
def parse_inf_recursively (infs : String → InfDecl) (dsc : String) :
    Nat → String → String → List (String × String) → OverrideDict → String → List String →
    Except PyErr (List Entry × List String)
  | 0, _, _, _, _, _, _ => .error .outOfFuel
  | fuel + 1, inf, component, library_dict, override_dict, scope, visited =>
    let visited := visited ++ [inf]
    let infp := infs inf
    match resolve_classes dsc scope library_dict override_dict infp.libraries with
    | .error e => .error e
    | .ok resolved =>
      let library_instances := resolved ++ override_dict.null_libs.filter (fun l => l != inf)
      match visit_loop
          (fun l v => parse_inf_recursively infs dsc fuel l component library_dict override_dict scope v)
          library_instances [] visited with
      | .error e => .error e
      | .ok (to_return, visited) =>
        match infp.base_name with
        | none => .error (.keyError "BASE_NAME")
        | some base_name =>
          match infp.module_type with
          | none => .error (.keyError "MODULE_TYPE")
          | some module_type =>
            .ok (to_return ++ [{
              DSC := path_name dsc,
              PATH := as_posix inf,
              GUID := infp.file_guid.getD "",
              NAME := base_name,
              COMPONENT := some (as_posix component),
              MODULE_TYPE := module_type,
              ARCH := upper_string ((split_on_char '.' scope).headD ""),
              SOURCES_USED := infp.sources.map as_posix,
              LIBRARIES_USED := library_instances.map as_posix,
              PCDS_USED := infp.pcds }], visited)

/-- The scope a component is expanded under: the DSC scope with
".MODULE_TYPE" (lower-cased) appended when the INF declares a module type
(lines 126-127 of instanced_inf_table.py). -/
def component_scope (infs : String → InfDecl) (c : Component) : String :=
  match (infs c.inf).module_type with
  | some mt => c.scope ++ lower_string ("." ++ mt)
  | none => c.scope

/-- The component loop of InstancedInfTable._build_inf_table: components
whose INF declares LIBRARY_CLASS are skipped; the others are expanded
recursively from a fresh empty visited list, and their record lists are
concatenated in declaration order. -/
def build_components (infs : String → InfDecl) (dsc : String) (fuel : Nat)
    (library_dict : List (String × String)) :
    List Component → Except PyErr (List Entry)
  | [] => .ok []
  | c :: rest =>
    if (infs c.inf).library_class.isSome then
      build_components infs dsc fuel library_dict rest
    else
      match parse_inf_recursively infs dsc fuel c.inf c.inf library_dict c.overrides
          (component_scope infs c) [] with
      | .error e => .error e
      | .ok (rows, _) =>
        match build_components infs dsc fuel library_dict rest with
        | .error e => .error e
        | .ok more => .ok (rows ++ more)

/-- The normalization pass at the end of _build_inf_table: an entry whose
PATH equals its COMPONENT has COMPONENT rewritten to None. -/
def normalize_entry (e : Entry) : Entry :=
  if some e.PATH = e.COMPONENT then { e with COMPONENT := none } else e

/-- InstancedInfTable._build_inf_table: expand every component, then
normalize component rows. -/
def build_inf_table (infs : String → InfDecl) (dsc : String) (fuel : Nat)
    (library_dict : List (String × String)) (components : List Component) :
    Except PyErr (List Entry) :=
  match build_components infs dsc fuel library_dict components with
  | .error e => .error e
  | .ok entries => .ok (entries.map normalize_entry)

/-- The visited list produced when one component is expanded (empty when
the expansion does not return normally); used to state side conditions
about posix-normalization collisions among the visited module paths. -/
def rec_visited_nodes (infs : String → InfDecl) (dsc : String) (fuel : Nat)
    (library_dict : List (String × String)) (c : Component) : List String :=
  match parse_inf_recursively infs dsc fuel c.inf c.inf library_dict c.overrides
      (component_scope infs c) [] with
  | .ok (_, vis) => vis
  | .error _ => []

/-! ## The relational store (sqlite3 embedding)

Tables are lists of typed rows in insertion order; the rowid sequence of
instanced_inf (INTEGER PRIMARY KEY AUTOINCREMENT) is next_id. A SELECT
without ORDER BY is modelled as scanning in insertion (rowid) order, which
is what sqlite does for these single-table queries. -/

/-- One row of the instanced_inf table. -/
structure InstancedInfRow where
  id : Nat
  env : Nat
  dsc : String
  path : String
  name : String
  arch : String
  component : Option String
deriving DecidableEq, Repr

/-- A junction key: the code stores both integer row ids and path strings
in the TEXT key columns (sqlite keeps the value as given). -/
inductive JunctionKey where
  | num (n : Nat)
  | str (s : String)
deriving DecidableEq, Repr

/-- One row of the junction table. -/
structure JunctionRow where
  table1 : String
  key1 : JunctionKey
  table2 : String
  key2 : JunctionKey
deriving DecidableEq, Repr

/-- The database state: which tables exist, the environment table (rows of
(id, date), written by the external EnvironmentTable generator), the
instanced_inf and junction tables, and the next instanced_inf rowid. -/
structure DBState where
  tables : List String
  environment : List (Nat × Nat)
  instanced_inf : List InstancedInfRow
  junction : List JunctionRow
  next_id : Nat
deriving DecidableEq, Repr

/-- CREATE TABLE IF NOT EXISTS name. -/
def create_table_if_not_exists (name : String) (db : DBState) : DBState :=
  if name ∈ db.tables then db else { db with tables := db.tables ++ [name] }

/-- SELECT id FROM environment ORDER BY date DESC LIMIT 1: the id of the
row with the greatest date (the first such row when dates tie), none when
the table is empty. -/
def latest_env (rows : List (Nat × Nat)) : Option Nat :=
  (rows.foldl
    (fun best r => match best with
      | none => some r
      | some b => if b.2 < r.2 then some r else some b)
    none).map (fun r => r.1)

/-- GET_ROW_ID: SELECT id FROM instanced_inf WHERE env = ? and path = ?
and dsc = ? LIMIT 1, scanning in rowid order. -/
def get_row_id (db : DBState) (env : Nat) (path dsc : String) : Option Nat :=
  (db.instanced_inf.find? (fun r => r.env == env && r.path == path && r.dsc == dsc)).map
    (fun r => r.id)

/-- All instanced_inf rows matching a (env, path, dsc) triple. -/
def rows_matching (db : DBState) (env : Nat) (path dsc : String) : List InstancedInfRow :=
  db.instanced_inf.filter (fun r => r.env == env && r.path == path && r.dsc == dsc)

/-- INSERT INTO instanced_inf (env, dsc, path, name, arch, component). -/
def insert_inf_row (env : Nat) (e : Entry) (db : DBState) : DBState :=
  { db with
    instanced_inf := db.instanced_inf ++
      [⟨db.next_id, env, e.DSC, e.PATH, e.NAME, e.ARCH, e.COMPONENT⟩],
    next_id := db.next_id + 1 }

/-- The first loop of InstancedInfTable.parse over inf_entries: insert one
instanced_inf row per entry. -/
def insert_rows (env : Nat) (entries : List Entry) (db : DBState) : DBState :=
  entries.foldl (fun d e => insert_inf_row env e d) db

/-- INSERT INTO junction (table1, key1, table2, key2). -/
def insert_junction (r : JunctionRow) (db : DBState) : DBState :=
  { db with junction := db.junction ++ [r] }

/-- The PATH rewrite at the top of InstancedInfTable.parse: an absolute
PATH is replaced by its package-relative form
(GetEdk2RelativePathFromAbsolutePath, an external collaborator modelled by
the rel argument); every other field is untouched. -/
def relativize_entry (rel : String → String) (e : Entry) : Entry :=
  if is_absolute e.PATH then { e with PATH := rel e.PATH } else e

/-- The inner loop inserting one junction edge per library of an entry:
each edge's key2 is the target library's row id re-derived through
GET_ROW_ID; fetchone()[0] on an empty result raises (TypeError), leaving
the rows inserted so far in place. -/
def add_library_edges (env : Nat) (dsc : String) (inf_id : Nat) :
    List String → DBState → DBState × Option PyErr
  | [], db => (db, none)
  | l :: rest, db =>
    match get_row_id db env l dsc with
    | none => (db, some .typeError)
    | some used_id =>
      add_library_edges env dsc inf_id rest
        (insert_junction ⟨"instanced_inf", .num inf_id, "instanced_inf", .num used_id⟩ db)

/-- The junction insertions for one entry: re-derive the entry's own row
id, then one source edge per source and one library edge per resolved
library. -/
def add_entry_edges (env : Nat) (e : Entry) (db : DBState) : DBState × Option PyErr :=
  match get_row_id db env e.PATH e.DSC with
  | none => (db, some .typeError)
  | some inf_id =>
    let db := e.SOURCES_USED.foldl
      (fun d s => insert_junction ⟨"instanced_inf", .num inf_id, "source", .str s⟩ d) db
    add_library_edges env e.DSC inf_id e.LIBRARIES_USED db

/-- The second loop of InstancedInfTable.parse over inf_entries. -/
def add_all_edges (env : Nat) : List Entry → DBState → DBState × Option PyErr
  | [], db => (db, none)
  | e :: rest, db =>
    match add_entry_edges env e db with
    | (db', some err) => (db', some err)
    | (db', none) => add_all_edges env rest db'

/-- The configuration an InstancedInfTable holds after construction. -/
structure InstancedInfTable where
  dsc : String
  fdf : String
  arch : List String
  target : String
deriving DecidableEq, Repr

/-- The env mapping passed to InstancedInfTable(env=...): the four keys
the constructor reads (none models an absent key). -/
structure EnvDict where
  active_platform : Option String
  flash_definition : Option String
  target_arch : Option String
  target : Option String
deriving DecidableEq, Repr

/-- InstancedInfTable.__init__: read ACTIVE_PLATFORM (required),
FLASH_DEFINITION (optional, default ""), TARGET_ARCH (required, split on
spaces) and TARGET (required) in that order; a missing required key is a
KeyError naming it, raised at construction. -/
def instanced_inf_table_init (env : EnvDict) : Except PyErr InstancedInfTable :=
  match env.active_platform with
  | none => .error (.keyError "ACTIVE_PLATFORM")
  | some dsc =>
    let fdf := env.flash_definition.getD ""
    match env.target_arch with
    | none => .error (.keyError "TARGET_ARCH")
    | some ta =>
      match env.target with
      | none => .error (.keyError "TARGET")
      | some tgt => .ok ⟨dsc, fdf, split_on_char ' ' ta, tgt⟩

/-- InstancedInfTable.parse: build the entry list from the DSC view,
rewrite absolute PATHs package-relative, read the latest environment id
(fetchone()[0] raises on an empty environment table), insert all rows,
then insert all junction edges. Returns the database as left by the call
together with the raised error, if any (Python mutates the shared
connection in place). -/
def instanced_inf_parse (infs : String → InfDecl) (rel : String → String)
    (t : InstancedInfTable) (fuel : Nat) (components : List Component)
    (library_dict : List (String × String)) (db : DBState) : DBState × Option PyErr :=
  match build_inf_table infs t.dsc fuel library_dict components with
  | .error e => (db, some e)
  | .ok entries =>
    let entries := entries.map (relativize_entry rel)
    match latest_env db.environment with
    | none => (db, some .typeError)
    | some env =>
      add_all_edges env entries (insert_rows env entries db)

/-- InstancedInfTable.create_tables. -/
def instanced_inf_create_tables (db : DBState) : DBState :=
  create_table_if_not_exists "instanced_inf" db

/-! ## The Edk2DB orchestrator -/

/-- The TableGenerator contract as Edk2DB drives it: a schema step and a
population step against the shared connection (parse returns the mutated
state together with the raised error, if any). -/
structure TableGen where
  create_tables : DBState → DBState
  parse : DBState → DBState × Option PyErr

/-- An sqlite3 connection: the durable (committed) state and the state as
seen by cursors (pending, including uncommitted writes). -/
structure Conn where
  committed : DBState
  pending : DBState
deriving DecidableEq, Repr

/-- The observable steps Edk2DB.parse performs, indexed by the generator's
position in registration order. -/
inductive Event where
  | ensure_junction
  | create_tables (i : Nat)
  | parse_gen (i : Nat)
  | commit (i : Nat)
deriving DecidableEq, Repr

/-- The CREATE TABLE IF NOT EXISTS junction statement at the top of
Edk2DB.parse. -/
def ensure_junction_table (db : DBState) : DBState :=
  create_table_if_not_exists "junction" db

/-- The first loop of Edk2DB.parse: create_tables on every registered
generator in registration order. -/
def run_create_tables : List TableGen → Nat → DBState → DBState × List Event
  | [], _, db => (db, [])
  | g :: rest, i, db =>
    let db := g.create_tables db
    let (db', evs) := run_create_tables rest (i + 1) db
    (db', .create_tables i :: evs)

/-- The second loop of Edk2DB.parse: parse each generator against the
pending state, committing the connection right after each one completes;
an error stops the loop and propagates, leaving the failing generator's
writes pending and uncommitted. -/
def run_parsers : List TableGen → Nat → Conn → Conn × List Event × Option PyErr
  | [], _, c => (c, [], none)
  | g :: rest, i, c =>
    match g.parse c.pending with
    | (d, some e) => (⟨c.committed, d⟩, [.parse_gen i], some e)
    | (d, none) =>
      let (c', evs, r) := run_parsers rest (i + 1) ⟨d, d⟩
      (c', .parse_gen i :: .commit i :: evs, r)

/-- Edk2DB.parse: ensure the junction table, run every generator's
create_tables, then parse each generator with a commit after each. -/
def edk2db_parse (gens : List TableGen) (c : Conn) : Conn × List Event × Option PyErr :=
  let c1 : Conn := { c with pending := ensure_junction_table c.pending }
  let (db2, evs1) := run_create_tables gens 0 c1.pending
  let (c3, evs2, r) := run_parsers gens 0 { c1 with pending := db2 }
  (c3, .ensure_junction :: (evs1 ++ evs2), r)

/-- Edk2DB.__exit__: commit then close, unconditionally — the durable
state after the context manager exits is whatever was pending. -/
def edk2db_exit (c : Conn) : DBState :=
  c.pending

/-! ## Traversal invariants of the recursive expansion -/

/-- The behaviour of the visit loop, parametric in the recursive call
parseF and a per-record predicate Q: if every recursive call on an
unvisited node appends the newly visited nodes to the visited list (the
node among them), preserves distinctness, returns records whose paths are
a permutation of the posix forms of the new nodes, with Q holding of each
record and each record's resolved libraries lying (in posix form) in the
final visited list — then the loop satisfies the same invariants relative
to its accumulator, and additionally every listed library ends up
visited. -/
theorem visit_loop_spec
    (parseF : String → List String → Except PyErr (List Entry × List String))
    (Q : Entry → Prop)
    (hF : ∀ l v rows v', l ∉ v → parseF l v = .ok (rows, v') →
      ∃ new, v' = v ++ new ∧ l ∈ new ∧ (v.Nodup → v'.Nodup) ∧
        (rows.map Entry.PATH).Perm (new.map as_posix) ∧
        (∀ e ∈ rows, Q e) ∧
        (∀ e ∈ rows, ∀ p ∈ e.LIBRARIES_USED, p ∈ v'.map as_posix)) :
    ∀ (libs : List String) (acc : List Entry) (visited : List String)
      (rows' : List Entry) (v'' : List String),
      visit_loop parseF libs acc visited = .ok (rows', v'') →
      ∃ new, v'' = visited ++ new ∧
        (visited.Nodup → v''.Nodup) ∧
        (rows'.map Entry.PATH).Perm (acc.map Entry.PATH ++ new.map as_posix) ∧
        (∀ l ∈ libs, l ∈ v'') ∧
        (∀ e ∈ rows', e ∈ acc ∨ Q e) ∧
        (∀ e ∈ rows', e ∈ acc ∨ ∀ p ∈ e.LIBRARIES_USED, p ∈ v''.map as_posix) := by
  intro libs
  induction libs with
  | nil =>
    intro acc visited rows' v'' h
    obtain ⟨rfl, rfl⟩ : acc = rows' ∧ visited = v'' := by
      simpa [visit_loop] using h
    exact ⟨[], by simp, fun hn => by simpa using hn, by simp,
      by simp, fun e he => .inl he, fun e he => .inl he⟩
  | cons l rest ih =>
    intro acc visited rows' v'' h
    unfold visit_loop at h
    by_cases hmem : l ∈ visited
    · rw [if_pos hmem] at h
      obtain ⟨new, rfl, hnd, hperm, hrest, hQ, hlib⟩ := ih acc visited rows' v'' h
      refine ⟨new, rfl, hnd, hperm, ?_, hQ, hlib⟩
      intro x hx
      rcases List.mem_cons.mp hx with rfl | hx
      · exact List.mem_append_left _ hmem
      · exact hrest x hx
    · rw [if_neg hmem] at h
      cases hp : parseF l visited with
      | error e => rw [hp] at h; exact absurd h (by simp)
      | ok pr =>
        obtain ⟨rows1, v1⟩ := pr
        rw [hp] at h
        obtain ⟨new1, hv1, hlmem, hnd1, hperm1, hQ1, hlib1⟩ := hF l visited rows1 v1 hmem hp
        subst hv1
        obtain ⟨new2, hv2, hnd2, hperm2, hrest, hQ2, hlib2⟩ :=
          ih (acc ++ rows1) (visited ++ new1) rows' v'' h
        subst hv2
        refine ⟨new1 ++ new2, by rw [List.append_assoc], fun hn => hnd2 (hnd1 hn), ?_, ?_, ?_, ?_⟩
        · rw [List.map_append] at hperm2
          rw [List.map_append]
          refine hperm2.trans ?_
          rw [List.append_assoc]
          exact List.Perm.append_left _ (hperm1.append_right _)
        · intro x hx
          rcases List.mem_cons.mp hx with rfl | hx
          · exact List.mem_append_left _ (List.mem_append_right _ hlmem)
          · exact hrest x hx
        · intro e he
          rcases hQ2 e he with hin | hq
          · rcases List.mem_append.mp hin with h' | h'
            · exact .inl h'
            · exact .inr (hQ1 e h')
          · exact .inr hq
        · intro e he
          rcases hlib2 e he with hin | hall
          · rcases List.mem_append.mp hin with h' | h'
            · exact .inl h'
            · refine .inr ?_
              intro p hp'
              have hmem1 := hlib1 e h' p hp'
              rw [List.map_append]
              exact List.mem_append_left _ hmem1
          · exact .inr hall

/-- The master invariant of _parse_inf_recursively: a call on a node not
yet visited appends the newly visited nodes to the shared visited list
(the node itself among them), preserves distinctness of the visited list,
and returns exactly one record per newly visited node — the record paths
are a permutation of the posix forms of the new nodes; every record
carries the owning component (in posix form) and the DSC file name, and
every record's resolved library list lies (in posix form) inside the
final visited list. -/
theorem parse_inf_recursively_spec (infs : String → InfDecl) (dsc : String)
    (ld : List (String × String)) (od : OverrideDict) (scope : String) :
    ∀ (fuel : Nat) (inf component : String) (visited : List String)
      (rows : List Entry) (v' : List String),
      inf ∉ visited →
      parse_inf_recursively infs dsc fuel inf component ld od scope visited = .ok (rows, v') →
      ∃ new, v' = visited ++ new ∧ inf ∈ new ∧
        (visited.Nodup → v'.Nodup) ∧
        (rows.map Entry.PATH).Perm (new.map as_posix) ∧
        (∀ e ∈ rows, e.COMPONENT = some (as_posix component) ∧ e.DSC = path_name dsc) ∧
        (∀ e ∈ rows, ∀ p ∈ e.LIBRARIES_USED, p ∈ v'.map as_posix) := by
  intro fuel
  induction fuel with
  | zero =>
    intro inf component visited rows v' hnin h
    exact absurd h (by simp [parse_inf_recursively])
  | succ fuel ih =>
    intro inf component visited rows v' hnin h
    simp only [parse_inf_recursively] at h
    split at h
    · exact absurd h (by simp)
    · rename_i resolved hr
      split at h
      · exact absurd h (by simp)
      · rename_i pr to_return vL hv
        split at h
        · exact absurd h (by simp)
        · rename_i base_name hbn
          split at h
          · exact absurd h (by simp)
          · rename_i module_type hmt
            obtain ⟨rfl, rfl⟩ : _ ∧ vL = v' := by simpa using h
            obtain ⟨new2, hvL, hnd2, hperm2, hlibs2, hQ2, hlib2⟩ :=
              visit_loop_spec
                (fun l v => parse_inf_recursively infs dsc fuel l component ld od scope v)
                (fun e => e.COMPONENT = some (as_posix component) ∧ e.DSC = path_name dsc)
                (fun l v rows2 v2 hl hp => ih l component v rows2 v2 hl hp)
                _ [] (visited ++ [inf]) to_return vL hv
            subst hvL
            have hnd0 : visited.Nodup → (visited ++ [inf]).Nodup := by
              intro hn
              rw [List.nodup_append]
              refine ⟨hn, List.nodup_singleton _, ?_⟩
              intro x hx hx'
              rw [List.mem_singleton] at hx'
              subst hx'
              exact hnin hx
            refine ⟨inf :: new2, by simp, List.mem_cons_self _ _,
              fun hn => hnd2 (hnd0 hn), ?_, ?_, ?_⟩
            · rw [List.map_append]
              have h2 : (to_return.map Entry.PATH).Perm (new2.map as_posix) := by
                simpa using hperm2
              exact (h2.append_right _).trans (List.perm_append_singleton _ _)
            · intro e he
              rcases List.mem_append.mp he with h' | h'
              · rcases hQ2 e h' with h0 | hq
                · exact absurd h0 (List.not_mem_nil e)
                · exact hq
              · rw [List.mem_singleton] at h'
                subst h'
                exact ⟨rfl, rfl⟩
            · intro e he p hp
              rcases List.mem_append.mp he with h' | h'
              · rcases hlib2 e h' with h0 | hall
                · exact absurd h0 (List.not_mem_nil e)
                · exact hall p hp
              · rw [List.mem_singleton] at h'
                subst h'
                have hp' : p ∈ List.map as_posix
                    (resolved ++ List.filter (fun l => l != inf) od.null_libs) := by
                  simpa using hp
                obtain ⟨li, hli, rfl⟩ := List.mem_map.mp hp'
                exact List.mem_map_of_mem as_posix (hlibs2 li hli)

/-- normalize_entry rewrites only COMPONENT: every other field is kept. -/
theorem normalize_entry_fields (e : Entry) :
    (normalize_entry e).PATH = e.PATH ∧ (normalize_entry e).DSC = e.DSC ∧
    (normalize_entry e).NAME = e.NAME ∧ (normalize_entry e).ARCH = e.ARCH ∧
    (normalize_entry e).SOURCES_USED = e.SOURCES_USED ∧
    (normalize_entry e).LIBRARIES_USED = e.LIBRARIES_USED := by
  unfold normalize_entry
  split <;> exact ⟨rfl, rfl, rfl, rfl, rfl, rfl⟩

/-- Every entry produced by the component loop carries the DSC file name,
and every library named by an entry is the PATH of some entry of the
result (the entry of the same component's batch). -/
theorem build_components_covered (infs : String → InfDecl) (dsc : String) (fuel : Nat)
    (ld : List (String × String)) :
    ∀ (comps : List Component) (entries : List Entry),
      build_components infs dsc fuel ld comps = .ok entries →
      (∀ e ∈ entries, e.DSC = path_name dsc) ∧
      (∀ e ∈ entries, ∀ p ∈ e.LIBRARIES_USED, ∃ e' ∈ entries, e'.PATH = p) := by
  intro comps
  induction comps with
  | nil =>
    intro entries h
    obtain rfl : ([] : List Entry) = entries := by simpa [build_components] using h
    exact ⟨by simp, by simp⟩
  | cons c rest ih =>
    intro entries h
    unfold build_components at h
    by_cases hlc : (infs c.inf).library_class.isSome
    · rw [if_pos hlc] at h
      exact ih entries h
    · rw [if_neg hlc] at h
      cases hr : parse_inf_recursively infs dsc fuel c.inf c.inf ld c.overrides
          (component_scope infs c) [] with
      | error e => rw [hr] at h; exact absurd h (by simp)
      | ok pr =>
        obtain ⟨rows, vis⟩ := pr
        rw [hr] at h
        cases hb : build_components infs dsc fuel ld rest with
        | error e => rw [hb] at h; exact absurd h (by simp)
        | ok more =>
          rw [hb] at h
          obtain rfl : rows ++ more = entries := by simpa using h
          obtain ⟨hd, hcov⟩ := ih more hb
          obtain ⟨new, hv, _, _, hperm, hQ, hlib⟩ :=
            parse_inf_recursively_spec infs dsc ld c.overrides (component_scope infs c)
              fuel c.inf c.inf [] rows vis (List.not_mem_nil _) hr
          simp only [List.nil_append] at hv
          subst hv
          constructor
          · intro e he
            rcases List.mem_append.mp he with h' | h'
            · exact (hQ e h').2
            · exact hd e h'
          · intro e he p hp
            rcases List.mem_append.mp he with h' | h'
            · have hmem : p ∈ rows.map Entry.PATH := hperm.mem_iff.mpr (hlib e h' p hp)
              obtain ⟨e', he', hpe⟩ := List.mem_map.mp hmem
              exact ⟨e', List.mem_append_left _ he', hpe⟩
            · obtain ⟨e', he', hpe⟩ := hcov e h' p hp
              exact ⟨e', List.mem_append_right _ he', hpe⟩

/-- The coverage facts survive the normalization pass of _build_inf_table
(which rewrites only COMPONENT fields). -/
theorem build_inf_table_covered (infs : String → InfDecl) (dsc : String) (fuel : Nat)
    (ld : List (String × String)) (comps : List Component) (entries : List Entry)
    (h : build_inf_table infs dsc fuel ld comps = .ok entries) :
    (∀ e ∈ entries, e.DSC = path_name dsc) ∧
    (∀ e ∈ entries, ∀ p ∈ e.LIBRARIES_USED, ∃ e' ∈ entries, e'.PATH = p) := by
  unfold build_inf_table at h
  cases hb : build_components infs dsc fuel ld comps with
  | error e => rw [hb] at h; exact absurd h (by simp)
  | ok raw =>
    rw [hb] at h
    obtain rfl : raw.map normalize_entry = entries := by simpa using h
    obtain ⟨hd, hcov⟩ := build_components_covered infs dsc fuel ld comps raw hb
    constructor
    · intro e he
      obtain ⟨e0, he0, rfl⟩ := List.mem_map.mp he
      rw [(normalize_entry_fields e0).2.1]
      exact hd e0 he0
    · intro e he p hp
      obtain ⟨e0, he0, rfl⟩ := List.mem_map.mp he
      rw [(normalize_entry_fields e0).2.2.2.2.2] at hp
      obtain ⟨e', he', hpe⟩ := hcov e0 he0 p hp
      refine ⟨normalize_entry e', List.mem_map_of_mem _ he', ?_⟩
      rw [(normalize_entry_fields e').1]
      exact hpe

/-- Inserting the rows for an entry list grows the number of rows matching
a (env, path, dsc) triple by the number of entries whose PATH and DSC
equal it. -/
theorem rows_matching_insert (env : Nat) (l d : String) :
    ∀ (entries : List Entry) (db : DBState),
      (rows_matching (insert_rows env entries db) env l d).length =
        (rows_matching db env l d).length +
          entries.countP (fun e => e.PATH == l && e.DSC == d) := by
  intro entries
  induction entries with
  | nil => intro db; simp [insert_rows, rows_matching]
  | cons e rest ih =>
    intro db
    have hstep : (rows_matching (insert_inf_row env e db) env l d).length =
        (rows_matching db env l d).length +
          (if (e.PATH == l && e.DSC == d) = true then 1 else 0) := by
      unfold rows_matching insert_inf_row
      by_cases hc1 : (e.PATH == l) = true <;> by_cases hc2 : (e.DSC == d) = true <;>
        simp [List.filter_append, List.filter, hc1, hc2]
    have hfold : insert_rows env (e :: rest) db =
        insert_rows env rest (insert_inf_row env e db) := rfl
    rw [hfold, ih (insert_inf_row env e db), hstep, List.countP_cons]
    omega

/-- The junction-insertion phase never touches the instanced_inf table:
the library loop. -/
theorem add_library_edges_instanced_inf (env : Nat) (dsc : String) (inf_id : Nat) :
    ∀ (libs : List String) (db : DBState),
      ((add_library_edges env dsc inf_id libs db).1).instanced_inf = db.instanced_inf := by
  intro libs
  induction libs with
  | nil => intro db; rfl
  | cons l rest ih =>
    intro db
    unfold add_library_edges
    cases hg : get_row_id db env l dsc with
    | none => rfl
    | some used_id => exact ih (insert_junction ⟨"instanced_inf", .num inf_id, "instanced_inf", .num used_id⟩ db)

/-- The junction-insertion phase never touches the instanced_inf table:
the source loop. -/
theorem fold_sources_instanced_inf (inf_id : Nat) :
    ∀ (sources : List String) (db : DBState),
      (sources.foldl (fun d s =>
        insert_junction ⟨"instanced_inf", .num inf_id, "source", .str s⟩ d) db).instanced_inf =
      db.instanced_inf := by
  intro sources
  induction sources with
  | nil => intro db; rfl
  | cons s rest ih => intro db; exact ih _

/-- The junction-insertion phase never touches the instanced_inf table:
one entry. -/
theorem add_entry_edges_instanced_inf (env : Nat) (e : Entry) (db : DBState) :
    ((add_entry_edges env e db).1).instanced_inf = db.instanced_inf := by
  unfold add_entry_edges
  cases hg : get_row_id db env e.PATH e.DSC with
  | none => rfl
  | some inf_id =>
    rw [add_library_edges_instanced_inf, fold_sources_instanced_inf]

/-- The junction-insertion phase never touches the instanced_inf table —
even when it raises partway through, so every GET_ROW_ID lookup during the
edge phase sees exactly the rows present after the row-insertion phase. -/
theorem add_all_edges_instanced_inf (env : Nat) :
    ∀ (entries : List Entry) (db : DBState),
      ((add_all_edges env entries db).1).instanced_inf = db.instanced_inf := by
  intro entries
  induction entries with
  | nil => intro db; rfl
  | cons e rest ih =>
    intro db
    unfold add_all_edges
    cases hp : add_entry_edges env e db with
    | mk d err =>
      have hd : d.instanced_inf = db.instanced_inf := by
        have := add_entry_edges_instanced_inf env e db
        rw [hp] at this
        exact this
      cases err with
      | some er => simpa using hd
      | none => simp only []; rw [ih d, hd]

/-- A junction row is a library edge when its target table is
instanced_inf (source edges target the source pseudo-table instead). -/
def is_lib_edge (j : JunctionRow) : Bool :=
  j.table2 == "instanced_inf"

/-- The source loop adds no library edges. -/
theorem fold_sources_lib_edges (inf_id : Nat) :
    ∀ (sources : List String) (db : DBState),
      ((sources.foldl (fun d s =>
        insert_junction ⟨"instanced_inf", .num inf_id, "source", .str s⟩ d) db).junction.filter
          is_lib_edge).length =
      (db.junction.filter is_lib_edge).length := by
  intro sources
  induction sources with
  | nil => intro db; rfl
  | cons s rest ih =>
    intro db
    rw [List.foldl_cons, ih]
    simp [insert_junction, List.filter_append, is_lib_edge]

/-- A successful library loop adds exactly one library edge per listed
library. -/
theorem add_library_edges_count (env : Nat) (dsc : String) (inf_id : Nat) :
    ∀ (libs : List String) (db db' : DBState),
      add_library_edges env dsc inf_id libs db = (db', none) →
      (db'.junction.filter is_lib_edge).length =
        (db.junction.filter is_lib_edge).length + libs.length := by
  intro libs
  induction libs with
  | nil =>
    intro db db' h
    obtain rfl : db = db' := by simpa [add_library_edges] using congrArg Prod.fst h
    simp
  | cons l rest ih =>
    intro db db' h
    unfold add_library_edges at h
    cases hg : get_row_id db env l dsc with
    | none => rw [hg] at h; exact absurd (congrArg Prod.snd h) (by simp)
    | some used_id =>
      rw [hg] at h
      have := ih _ db' h
      rw [this]
      simp [insert_junction, List.filter_append, is_lib_edge]
      omega

/-- A successful entry adds exactly one library edge per library the entry
lists. -/
theorem add_entry_edges_count (env : Nat) (e : Entry) (db db' : DBState)
    (h : add_entry_edges env e db = (db', none)) :
    (db'.junction.filter is_lib_edge).length =
      (db.junction.filter is_lib_edge).length + e.LIBRARIES_USED.length := by
  unfold add_entry_edges at h
  cases hg : get_row_id db env e.PATH e.DSC with
  | none => rw [hg] at h; exact absurd (congrArg Prod.snd h) (by simp)
  | some inf_id =>
    rw [hg] at h
    rw [add_library_edges_count env e.DSC inf_id e.LIBRARIES_USED _ db' h,
      fold_sources_lib_edges]

/-- A successful junction phase adds exactly one library edge per
(consumer entry, listed library) pair. -/
theorem add_all_edges_count (env : Nat) :
    ∀ (entries : List Entry) (db db' : DBState),
      add_all_edges env entries db = (db', none) →
      (db'.junction.filter is_lib_edge).length =
        (db.junction.filter is_lib_edge).length +
          (entries.map (fun e => e.LIBRARIES_USED.length)).sum := by
  intro entries
  induction entries with
  | nil =>
    intro db db' h
    obtain rfl : db = db' := by simpa [add_all_edges] using congrArg Prod.fst h
    simp
  | cons e rest ih =>
    intro db db' h
    unfold add_all_edges at h
    cases hp : add_entry_edges env e db with
    | mk d err =>
      rw [hp] at h
      cases err with
      | some er => exact absurd (congrArg Prod.snd h) (by simp)
      | none =>
        have hcount := add_entry_edges_count env e db d hp
        rw [ih d db' h, hcount]
        simp
        omega

/-- Counting an element of the image of a map is counting preimages. -/
theorem count_map_eq_countP (f : String → String) (b : String) :
    ∀ l : List String, (l.map f).count b = l.countP (fun a => f a == b) := by
  intro l
  induction l with
  | nil => rfl
  | cons a rest ih =>
    simp only [List.map_cons, List.count_cons, List.countP_cons, ih]

/-- In a duplicate-free list a member is counted exactly once. -/
theorem count_eq_one_of_nodup_mem {a : String} {l : List String}
    (hn : l.Nodup) (hm : a ∈ l) : l.count a = 1 :=
  Nat.le_antisymm (List.nodup_iff_count_le_one.mp hn a) (List.count_pos_iff.mpr hm)

/-- One expanded component holds exactly one record whose path is the
posix form of a given visited module, provided no other visited module
path collides with it under posix normalization. -/
theorem batch_path_count (infs : String → InfDecl) (dsc : String)
    (ld : List (String × String)) (od : OverrideDict) (scope : String) (fuel : Nat)
    (root : String) (rows : List Entry) (vis : List String)
    (hr : parse_inf_recursively infs dsc fuel root root ld od scope [] = .ok (rows, vis))
    (n : String) (hn : n ∈ vis)
    (hinjn : ∀ x ∈ vis, as_posix x = as_posix n → x = n) :
    rows.countP (fun e => e.PATH == as_posix n) = 1 := by
  obtain ⟨new, hv, _, hnd, hperm, _, _⟩ :=
    parse_inf_recursively_spec infs dsc ld od scope fuel root root [] rows vis
      (List.not_mem_nil _) hr
  simp only [List.nil_append] at hv
  subst hv
  have h2 : rows.countP (fun e => e.PATH == as_posix n) =
      (rows.map Entry.PATH).count (as_posix n) := by
    rw [show (rows.map Entry.PATH).count (as_posix n) =
      (rows.map Entry.PATH).countP (· == as_posix n) from rfl, List.countP_map]
    rfl
  have h3 : (rows.map Entry.PATH).count (as_posix n) =
      (vis.map as_posix).count (as_posix n) := hperm.count_eq _
  have h4 : (vis.map as_posix).count (as_posix n) =
      vis.countP (fun x => as_posix x == as_posix n) :=
    count_map_eq_countP as_posix (as_posix n) vis
  have h5 : vis.countP (fun x => as_posix x == as_posix n) =
      vis.countP (fun x => x == n) := by
    refine List.countP_congr ?_
    intro x hx
    constructor
    · intro hb
      have := hinjn x hx (by simpa using hb)
      simpa using this
    · intro hb
      have hb' : x = n := by simpa using hb
      subst hb'
      simp
  have h7 : vis.count n = 1 :=
    count_eq_one_of_nodup_mem (hnd List.nodup_nil) hn
  rw [h2, h3, h4, h5]
  exact h7

/-- One expanded component contributes exactly one record whose COMPONENT
normalizes to none — its own root record — provided no other visited
module path collides with the root's path under posix normalization. -/
theorem batch_null_count (infs : String → InfDecl) (dsc : String)
    (ld : List (String × String)) (od : OverrideDict) (scope : String) (fuel : Nat)
    (cinf : String) (rows : List Entry) (vis : List String)
    (hr : parse_inf_recursively infs dsc fuel cinf cinf ld od scope [] = .ok (rows, vis))
    (hinj : ∀ n ∈ vis, as_posix n = as_posix cinf → n = cinf) :
    rows.countP (fun e => ((normalize_entry e).COMPONENT).isNone) = 1 := by
  obtain ⟨new, hv, hmem, hnd, hperm, hQ, _⟩ :=
    parse_inf_recursively_spec infs dsc ld od scope fuel cinf cinf [] rows vis
      (List.not_mem_nil _) hr
  simp only [List.nil_append] at hv
  subst hv
  have h1 : rows.countP (fun e => ((normalize_entry e).COMPONENT).isNone) =
      rows.countP (fun e => e.PATH == as_posix cinf) := by
    refine List.countP_congr ?_
    intro e he
    have hc := (hQ e he).1
    constructor
    · intro hxx
      unfold normalize_entry at hxx
      by_cases hcond : some e.PATH = e.COMPONENT
      · rw [hc] at hcond
        have hpe : e.PATH = as_posix cinf := by
          injection hcond
        simpa using hpe
      · rw [if_neg hcond, hc] at hxx
        simp at hxx
    · intro hxx
      have hpe : e.PATH = as_posix cinf := by simpa using hxx
      unfold normalize_entry
      rw [if_pos (by rw [hc, hpe])]
      rfl
  rw [h1]
  exact batch_path_count infs dsc ld od scope fuel cinf rows vis hr cinf hmem hinj

/-- Summed over the component loop: one none-COMPONENT record per
component whose module is not itself a library declaration. -/
theorem build_components_null_count (infs : String → InfDecl) (dsc : String) (fuel : Nat)
    (ld : List (String × String)) :
    ∀ (comps : List Component) (raw : List Entry),
      build_components infs dsc fuel ld comps = .ok raw →
      (∀ c ∈ comps, ∀ n ∈ rec_visited_nodes infs dsc fuel ld c,
        as_posix n = as_posix c.inf → n = c.inf) →
      raw.countP (fun e => ((normalize_entry e).COMPONENT).isNone) =
        (comps.filter (fun c => ((infs c.inf).library_class).isNone)).length := by
  intro comps
  induction comps with
  | nil =>
    intro raw h _
    obtain rfl : ([] : List Entry) = raw := by simpa [build_components] using h
    rfl
  | cons c rest ih =>
    intro raw h hinj
    unfold build_components at h
    cases hx : (infs c.inf).library_class with
    | some v =>
      simp only [hx, Option.isSome_some, if_true] at h
      rw [ih raw h (fun c' hc' => hinj c' (List.mem_cons_of_mem _ hc'))]
      simp [List.filter_cons, hx]
    | none =>
      simp only [hx, Option.isSome_none, Bool.false_eq_true, if_false] at h
      cases hr : parse_inf_recursively infs dsc fuel c.inf c.inf ld c.overrides
          (component_scope infs c) [] with
      | error e => rw [hr] at h; exact absurd h (by simp)
      | ok pr =>
        obtain ⟨rows, vis⟩ := pr
        rw [hr] at h
        cases hb : build_components infs dsc fuel ld rest with
        | error e => rw [hb] at h; exact absurd h (by simp)
        | ok more =>
          rw [hb] at h
          obtain rfl : rows ++ more = raw := by simpa using h
          have hinjc : ∀ n ∈ vis, as_posix n = as_posix c.inf → n = c.inf := by
            have hh := hinj c (List.mem_cons_self _ _)
            unfold rec_visited_nodes at hh
            rw [hr] at hh
            exact hh
          rw [List.countP_append,
            batch_null_count infs dsc ld c.overrides (component_scope infs c) fuel
              c.inf rows vis hr hinjc,
            ih more hb (fun c' hc' => hinj c' (List.mem_cons_of_mem _ hc'))]
          simp [List.filter_cons, hx]
          omega

/-! ## C3: dedup through the shared visited list -/

/-- C3: within one component's expansion — started from a fresh empty
visited list that is threaded through the entire recursion — the final
visited list has no duplicates and the flat record list holds exactly one
record per visited module (the record paths are a permutation of the posix
forms of the visited modules, and in particular there are exactly as many
records as visited modules). A library reachable from two different
ancestors inside the tree is therefore expanded once and yields exactly
one record: its second occurrence is suppressed by the visited check. -/
theorem visited_dedup_one_record_per_node
    (infs : String → InfDecl) (dsc : String) (ld : List (String × String))
    (od : OverrideDict) (scope : String) (fuel : Nat) (inf : String)
    (rows : List Entry) (vis : List String)
    (h : parse_inf_recursively infs dsc fuel inf inf ld od scope [] = .ok (rows, vis)) :
    vis.Nodup ∧ (rows.map Entry.PATH).Perm (vis.map as_posix) ∧
      rows.length = vis.length := by
  obtain ⟨new, hv, _, hnd, hperm, _, _⟩ :=
    parse_inf_recursively_spec infs dsc ld od scope fuel inf inf [] rows vis
      (List.not_mem_nil inf) h
  simp only [List.nil_append] at hv
  subst hv
  refine ⟨hnd List.nodup_nil, hperm, ?_⟩
  have hlen := hperm.length_eq
  simpa using hlen

/-- The diamond workspace: component Comp needs classes ClsA and ClsB;
their instances LibA and LibB both need ClsX, resolved to the shared
LibX — LibX is reachable from two different library ancestors. -/
def diamond_infs : String → InfDecl := fun p =>
  if p = "Comp.inf" then ⟨none, some "DXE_DRIVER", some "Comp", none, ["ClsA", "ClsB"], ["c.c"], []⟩
  else if p = "LibA.inf" then ⟨some "ClsA", some "BASE", some "LibA", none, ["ClsX"], [], []⟩
  else if p = "LibB.inf" then ⟨some "ClsB", some "BASE", some "LibB", none, ["ClsX"], [], []⟩
  else ⟨some "ClsX", some "BASE", some "LibX", none, [], [], []⟩

/-- The scoped library map of the diamond workspace. -/
def diamond_ld : List (String × String) :=
  [("common.clsa", "LibA.inf"), ("common.clsb", "LibB.inf"), ("common.clsx", "LibX.inf")]

/-- The records and visited list of the diamond component's expansion. -/
def diamond_run : List Entry × List String :=
  match parse_inf_recursively diamond_infs "Pkg/P.dsc" 10 "Comp.inf" "Comp.inf" diamond_ld
      ⟨[], []⟩ "common.dxe_driver" [] with
  | .ok r => r
  | .error _ => ([], [])

/-- Witness for C3: in the diamond workspace LibX is reachable through
LibA and through LibB, yet the expansion visits four modules, none twice,
and produces exactly four records — one per module. -/
theorem visited_dedup_one_record_per_node_witness :
    diamond_run.2.Nodup ∧
    (diamond_run.1.map Entry.PATH).Perm (diamond_run.2.map as_posix) ∧
    diamond_run.1.length = diamond_run.2.length :=
  visited_dedup_one_record_per_node diamond_infs "Pkg/P.dsc" diamond_ld ⟨[], []⟩
    "common.dxe_driver" 10 "Comp.inf" diamond_run.1 diamond_run.2 rfl

/-! ## C6: null-component normalization -/

/-- C6 counterexample: a platform description declaring a single component
whose INF declares LIBRARY_CLASS. The generator skips it entirely, the
build produces zero entries, and in particular zero null-component rows —
not "exactly one null-component row per component declared in the platform
description". -/
theorem component_null_row_counterexample :
    build_inf_table (fun _ => ⟨some "Cls", some "BASE", some "Lib", none, [], [], []⟩)
        "P.dsc" 10 [] [⟨"Lib.inf", "common", ⟨[], []⟩⟩] = .ok [] ∧
    ([] : List Entry).countP (fun e => (e.COMPONENT).isNone) = 0 ∧
    ([⟨"Lib.inf", "common", ⟨[], []⟩⟩] : List Component).length = 1 := by
  refine ⟨rfl, rfl, rfl⟩

/-- C6 (amended): after the flat row list for all components is built,
no entry keeps a component field equal to its own module path (every such
entry was rewritten to a null component), and — absent conditional
exclusion, which the DSC parser resolves before the component list is
handed over — exactly one null-component row exists per declared component
whose module is NOT itself a library declaration (components whose INF
declares LIBRARY_CLASS are skipped and produce no rows at all), assuming
no two distinct visited module paths of a component collide under posix
normalization. -/
theorem component_rows_null_normalized (infs : String → InfDecl) (dsc : String)
    (fuel : Nat) (ld : List (String × String)) (comps : List Component)
    (entries : List Entry)
    (hb : build_inf_table infs dsc fuel ld comps = .ok entries)
    (hinj : ∀ c ∈ comps, ∀ n ∈ rec_visited_nodes infs dsc fuel ld c,
      as_posix n = as_posix c.inf → n = c.inf) :
    (∀ e ∈ entries, e.COMPONENT ≠ some e.PATH) ∧
    entries.countP (fun e => (e.COMPONENT).isNone) =
      (comps.filter (fun c => ((infs c.inf).library_class).isNone)).length := by
  unfold build_inf_table at hb
  cases hbc : build_components infs dsc fuel ld comps with
  | error e => rw [hbc] at hb; exact absurd hb (by simp)
  | ok raw =>
    rw [hbc] at hb
    obtain rfl : raw.map normalize_entry = entries := by simpa using hb
    constructor
    · intro e he
      obtain ⟨e0, _, rfl⟩ := List.mem_map.mp he
      unfold normalize_entry
      split
      · simp
      · rename_i hcond
        intro hh
        exact hcond hh.symm
    · rw [List.countP_map]
      exact build_components_null_count infs dsc fuel ld comps raw hbc hinj

/-- The mixed workspace: one ordinary component C1 using class Cls, and
the library Lib.inf itself also declared in the components list. -/
def mixed_infs : String → InfDecl := fun p =>
  if p = "C1.inf" then ⟨none, some "DXE_DRIVER", some "C1", none, ["Cls"], [], []⟩
  else ⟨some "Cls", some "BASE", some "Lib", none, [], [], []⟩

/-- The component declarations of the mixed workspace (the second one is a
library declaration and is skipped by the generator). -/
def mixed_comps : List Component :=
  [⟨"C1.inf", "common", ⟨[], []⟩⟩, ⟨"Lib.inf", "common", ⟨[], []⟩⟩]

/-- The entries built for the mixed workspace. -/
def mixed_entries : List Entry :=
  match build_inf_table mixed_infs "P.dsc" 10 [("common.cls", "Lib.inf")] mixed_comps with
  | .ok es => es
  | .error _ => []

/-- Witness for C6 (amended): in the mixed workspace there is exactly one
null-component row — for the one non-library declared component — and the
library row built for C1 does not keep its own path as its component. -/
theorem component_rows_null_normalized_witness :
    mixed_entries.countP (fun e => (e.COMPONENT).isNone) =
      (mixed_comps.filter (fun c => ((mixed_infs c.inf).library_class).isNone)).length ∧
    (⟨"P.dsc", "Lib.inf", "", "Lib", some "C1.inf", "BASE", "COMMON", [], [], []⟩ :
      Entry).COMPONENT ≠
      some (⟨"P.dsc", "Lib.inf", "", "Lib", some "C1.inf", "BASE", "COMMON", [], [], []⟩ :
        Entry).PATH :=
  ⟨(component_rows_null_normalized mixed_infs "P.dsc" 10 [("common.cls", "Lib.inf")]
      mixed_comps mixed_entries rfl (by decide)).2,
   (component_rows_null_normalized mixed_infs "P.dsc" 10 [("common.cls", "Lib.inf")]
      mixed_comps mixed_entries rfl (by decide)).1
     ⟨"P.dsc", "Lib.inf", "", "Lib", some "C1.inf", "BASE", "COMMON", [], [], []⟩
     (by decide)⟩

/-! ## C5: the GET_ROW_ID lookup for library edges -/

/-- The two-component workspace: components C1 and C2 both need class Cls,
resolved at common scope to the shared Lib.inf. -/
def shared_infs : String → InfDecl := fun p =>
  if p = "C1.inf" then ⟨none, some "DXE_DRIVER", some "C1", none, ["Cls"], [], []⟩
  else if p = "C2.inf" then ⟨none, some "DXE_DRIVER", some "C2", none, ["Cls"], [], []⟩
  else ⟨some "Cls", some "BASE", some "Lib", none, [], [], []⟩

/-- The component declarations of the two-component workspace. -/
def shared_comps : List Component :=
  [⟨"C1.inf", "common", ⟨[], []⟩⟩, ⟨"C2.inf", "common", ⟨[], []⟩⟩]

/-- The configured generator for the two-component workspace. -/
def shared_table : InstancedInfTable := ⟨"P.dsc", "", ["X64"], "DEBUG"⟩

/-- The starting database for the two-component workspace: tables created,
one environment row with id 1. -/
def shared_db0 : DBState := ⟨["junction", "instanced_inf"], [(1, 0)], [], [], 1⟩

/-- The full parse of the two-component workspace. -/
def shared_result : DBState × Option PyErr :=
  instanced_inf_parse shared_infs (fun p => p) shared_table 10 shared_comps
    [("common.cls", "Lib.inf")] shared_db0

/-- C5 counterexample: with two components sharing one library, parse
succeeds but inserts two instanced_inf rows whose (env, path, dsc) triple
is (1, "Lib.inf", "P.dsc") — so at the time of the library-edge lookups
(all of which run after every row is inserted) two rows match that triple,
not exactly one. LIMIT 1 makes both library edges point at row id 1, the
first inserted copy of Lib.inf — component C2's edge targets the copy
owned by component C1. -/
theorem get_row_id_triple_ambiguous_counterexample :
    shared_result.2 = none ∧
    (rows_matching shared_result.1 1 "Lib.inf" "P.dsc").length = 2 ∧
    shared_result.1.junction.filter is_lib_edge =
      [⟨"instanced_inf", .num 2, "instanced_inf", .num 1⟩,
       ⟨"instanced_inf", .num 4, "instanced_inf", .num 1⟩] := by
  refine ⟨rfl, rfl, rfl⟩

/-- C5 (amended): for every library edge inserted during
InstancedInfTable.parse, the GET_ROW_ID lookup of the target library's row
by (environment id, library path, dsc name) finds AT LEAST one matching
row — every resolved library of an entry is itself the path of an inserted
row (given module paths that relativization leaves alone), and the edge
phase never modifies instanced_inf, so the lookup sees exactly the rows of
the insertion phase. Exactly one match is not guaranteed: a library shared
by two components yields several matching rows and LIMIT 1 returns the
first inserted. -/
theorem library_row_lookup_finds_a_row
    (infs : String → InfDecl) (rel : String → String) (t : InstancedInfTable)
    (fuel : Nat) (ld : List (String × String)) (comps : List Component)
    (entries : List Entry) (db : DBState) (env : Nat)
    (hb : build_inf_table infs t.dsc fuel ld comps = .ok entries)
    (habs : ∀ e ∈ entries, is_absolute e.PATH = false) :
    (entries.map (relativize_entry rel) = entries) ∧
    (∀ e ∈ entries, ∀ l ∈ e.LIBRARIES_USED,
      1 ≤ (rows_matching (insert_rows env entries db) env l e.DSC).length) ∧
    (∀ (es : List Entry) (d : DBState),
      ((add_all_edges env es d).1).instanced_inf = d.instanced_inf) := by
  have hmapid : entries.map (relativize_entry rel) = entries := by
    have hid : ∀ e ∈ entries, relativize_entry rel e = id e := by
      intro e he
      unfold relativize_entry
      rw [if_neg (by simp [habs e he])]
      rfl
    rw [List.map_congr_left hid, List.map_id]
  refine ⟨hmapid, ?_, fun es d => add_all_edges_instanced_inf env es d⟩
  intro e he l hl
  obtain ⟨hdsc, hcov⟩ := build_inf_table_covered infs t.dsc fuel ld comps entries hb
  obtain ⟨e', he', hpe⟩ := hcov e he l hl
  rw [rows_matching_insert]
  have hpos : 0 < entries.countP (fun x => x.PATH == l && x.DSC == e.DSC) := by
    rw [List.countP_pos_iff]
    exact ⟨e', he', by simp [hpe, hdsc e' he', hdsc e he]⟩
  omega

/-- The entries built for the two-component workspace. -/
def shared_entries : List Entry :=
  match build_inf_table shared_infs "P.dsc" 10 [("common.cls", "Lib.inf")] shared_comps with
  | .ok es => es
  | .error _ => []

/-- Witness for C5 (amended): in the two-component workspace, component
C1's lookup for its resolved library Lib.inf finds at least one matching
row among the inserted rows. -/
theorem library_row_lookup_finds_a_row_witness :
    1 ≤ (rows_matching (insert_rows 1 shared_entries shared_db0) 1 "Lib.inf" "P.dsc").length :=
  (library_row_lookup_finds_a_row shared_infs (fun p => p) shared_table 10
      [("common.cls", "Lib.inf")] shared_comps shared_entries shared_db0 1
      rfl (by decide)).2.1
    ⟨"P.dsc", "C1.inf", "", "C1", none, "DXE_DRIVER", "COMMON", [], ["Lib.inf"], []⟩
    (by decide) "Lib.inf" (by decide)

/-! ## C4: one shared row, one edge per consumer -/

/-- The component declaration list of the diamond workspace. -/
def diamond_comps : List Component := [⟨"Comp.inf", "common", ⟨[], []⟩⟩]

/-- The configured generator for the diamond workspace. -/
def diamond_table : InstancedInfTable := ⟨"Pkg/P.dsc", "", ["X64"], "DEBUG"⟩

/-- The starting database for the diamond workspace. -/
def diamond_db0 : DBState := ⟨["junction", "instanced_inf"], [(1, 0)], [], [], 1⟩

/-- The full parse of the diamond workspace. -/
def diamond_result : DBState × Option PyErr :=
  instanced_inf_parse diamond_infs (fun p => p) diamond_table 10 diamond_comps
    diamond_ld diamond_db0

/-- C4 counterexample: in the diamond workspace LibX is reachable through
LibA and through LibB within one component. The persisted output holds a
single row for LibX (row id 1) — but TWO library junction edges point at
it, one from LibA's row and one from LibB's row: the second consumer's
edge is NOT dropped, because each consumer's record still lists LibX among
its resolved libraries even when the visited check suppresses
re-expansion. -/
theorem second_consumer_edge_not_dropped_counterexample :
    diamond_result.2 = none ∧
    (diamond_result.1.instanced_inf.filter (fun r => r.path == "LibX.inf")).map
      (fun r => r.id) = [1] ∧
    (diamond_result.1.junction.filter
      (fun j => is_lib_edge j && j.key2 == .num 1)).length = 2 := by
  refine ⟨rfl, rfl, rfl⟩

/-- C4 (amended): when a library is reachable via two different paths
within one component's recursion, its second occurrence is omitted from
the row list — for every library an entry lists, exactly one row matches
its (env, path, dsc) triple (single-component run on rows of a fresh
environment, no posix collisions among visited paths) — but no edge is
dropped: each consumer's record still lists the library, and the edge
phase inserts exactly one library edge per (consumer entry, listed
library) pair, each edge resolved against the single shared row. -/
theorem shared_library_single_row_edge_per_consumer
    (infs : String → InfDecl) (t : InstancedInfTable)
    (fuel : Nat) (ld : List (String × String)) (c : Component)
    (entries : List Entry) (db db' : DBState) (env : Nat)
    (hb : build_inf_table infs t.dsc fuel ld [c] = .ok entries)
    (hfresh : ∀ r ∈ db.instanced_inf, r.env ≠ env)
    (hinj : ∀ n₁ ∈ rec_visited_nodes infs t.dsc fuel ld c,
      ∀ n₂ ∈ rec_visited_nodes infs t.dsc fuel ld c,
        as_posix n₁ = as_posix n₂ → n₁ = n₂)
    (hj : add_all_edges env entries (insert_rows env entries db) = (db', none)) :
    (∀ e ∈ entries, ∀ l ∈ e.LIBRARIES_USED,
      (rows_matching (insert_rows env entries db) env l e.DSC).length = 1) ∧
    (db'.junction.filter is_lib_edge).length =
      ((insert_rows env entries db).junction.filter is_lib_edge).length +
        (entries.map (fun e => e.LIBRARIES_USED.length)).sum := by
  refine ⟨?_, add_all_edges_count env entries _ db' hj⟩
  intro e he l hl
  unfold build_inf_table at hb
  cases hbc : build_components infs t.dsc fuel ld [c] with
  | error er => rw [hbc] at hb; exact absurd hb (by simp)
  | ok raw =>
    rw [hbc] at hb
    obtain rfl : raw.map normalize_entry = entries := by simpa using hb
    unfold build_components at hbc
    cases hx : (infs c.inf).library_class with
    | some v =>
      simp only [hx, Option.isSome_some, if_true] at hbc
      obtain rfl : ([] : List Entry) = raw := by simpa [build_components] using hbc
      simp at he
    | none =>
      simp only [hx, Option.isSome_none, Bool.false_eq_true, if_false] at hbc
      cases hr : parse_inf_recursively infs t.dsc fuel c.inf c.inf ld c.overrides
          (component_scope infs c) [] with
      | error er => rw [hr] at hbc; exact absurd hbc (by simp)
      | ok pr =>
        obtain ⟨rows, vis⟩ := pr
        rw [hr] at hbc
        obtain rfl : rows ++ [] = raw := by simpa [build_components] using hbc
        rw [List.append_nil] at he ⊢
        obtain ⟨e0, he0, rfl⟩ := List.mem_map.mp he
        rw [(normalize_entry_fields e0).2.2.2.2.2] at hl
        obtain ⟨new, hv, _, _, _, hQ, hlib⟩ :=
          parse_inf_recursively_spec infs t.dsc ld c.overrides (component_scope infs c)
            fuel c.inf c.inf [] rows vis (List.not_mem_nil _) hr
        simp only [List.nil_append] at hv
        subst hv
        have hlvis : l ∈ vis.map as_posix := hlib e0 he0 l hl
        obtain ⟨n, hn, rfl⟩ := List.mem_map.mp hlvis
        have hinjvis : ∀ x ∈ vis, as_posix x = as_posix n → x = n := by
          have hrv : rec_visited_nodes infs t.dsc fuel ld c = vis := by
            unfold rec_visited_nodes
            rw [hr]
          intro x hx heq
          exact hinj x (by rw [hrv]; exact hx) n (by rw [hrv]; exact hn) heq
        rw [rows_matching_insert]
        have hbase : (rows_matching db env (as_posix n) (normalize_entry e0).DSC).length = 0 := by
          rw [List.length_eq_zero]
          unfold rows_matching
          rw [List.filter_eq_nil_iff]
          intro r hrm
          simp only [Bool.and_eq_true, beq_iff_eq]
          rintro ⟨⟨h1, _⟩, _⟩
          exact hfresh r hrm h1
        have hcnt : (rows.map normalize_entry).countP
            (fun x => x.PATH == as_posix n && x.DSC == (normalize_entry e0).DSC) =
            rows.countP (fun x => x.PATH == as_posix n) := by
          rw [List.countP_map]
          refine List.countP_congr ?_
          intro x hx
          have hxf := normalize_entry_fields x
          have hdx : x.DSC = path_name t.dsc := (hQ x hx).2
          have hde : (normalize_entry e0).DSC = path_name t.dsc := by
            rw [(normalize_entry_fields e0).2.1]
            exact (hQ e0 he0).2
          simp only [Function.comp_apply, hxf.1, hxf.2.1, hdx, hde, Bool.and_eq_true,
            beq_iff_eq, and_iff_left_iff_imp]
          intro _
          trivial
        rw [hbase, hcnt,
          batch_path_count infs t.dsc ld c.overrides (component_scope infs c) fuel
            c.inf rows vis hr n hn hinjvis]

/-- The entries built for the diamond workspace. -/
def diamond_entries : List Entry :=
  match build_inf_table diamond_infs "Pkg/P.dsc" 10 diamond_ld diamond_comps with
  | .ok es => es
  | .error _ => []

/-- The diamond database after the row-insertion phase. -/
def diamond_rows_db : DBState := insert_rows 1 diamond_entries diamond_db0

/-- The diamond database after the edge phase. -/
def diamond_edges : DBState × Option PyErr := add_all_edges 1 diamond_entries diamond_rows_db

/-- Witness for C4 (amended): in the diamond workspace LibA's lookup of
the shared LibX finds exactly one matching row, and the edge phase inserts
one library edge per (consumer, library) pair — four in total for the four
consumer-library pairs, none dropped. -/
theorem shared_library_single_row_edge_per_consumer_witness :
    (rows_matching diamond_rows_db 1 "LibX.inf" "P.dsc").length = 1 ∧
    (diamond_edges.1.junction.filter is_lib_edge).length =
      (diamond_rows_db.junction.filter is_lib_edge).length +
        (diamond_entries.map (fun e => e.LIBRARIES_USED.length)).sum := by
  have h := shared_library_single_row_edge_per_consumer diamond_infs diamond_table 10
    diamond_ld ⟨"Comp.inf", "common", ⟨[], []⟩⟩ diamond_entries diamond_db0
    diamond_edges.1 1 rfl (by decide) (by decide) rfl
  exact ⟨h.1 ⟨"P.dsc", "LibA.inf", "", "LibA", some "Comp.inf", "BASE", "COMMON",
    [], ["LibX.inf"], []⟩ (by decide) "LibX.inf" (by decide), h.2⟩

/-! ## C1: the priority chain -/

/-- C1: for every library-class name needed under scope ARCH.MODULETYPE,
_lib_to_instance tries, in order with first match winning: the
per-component override for the class name, then the scoped library map
keys ARCH.MODULETYPE.cls, common.MODULETYPE.cls, ARCH.cls and common.cls;
whenever every higher-priority mapping is absent, resolution falls back to
the next key in exactly that order. -/
theorem lib_to_instance_priority_chain
    (dsc c scope a m : String) (ld : List (String × String)) (od : OverrideDict)
    (hs : split_on_char '.' scope = [a, m]) :
    (∀ v, dict_get od.classes c = some v → lib_to_instance dsc c scope ld od = .ok v) ∧
    (dict_get od.classes c = none → ∀ v,
      dict_get ld (a ++ "." ++ m ++ "." ++ c) = some v →
      lib_to_instance dsc c scope ld od = .ok v) ∧
    (dict_get od.classes c = none →
      dict_get ld (a ++ "." ++ m ++ "." ++ c) = none → ∀ v,
      dict_get ld ("common." ++ m ++ "." ++ c) = some v →
      lib_to_instance dsc c scope ld od = .ok v) ∧
    (dict_get od.classes c = none →
      dict_get ld (a ++ "." ++ m ++ "." ++ c) = none →
      dict_get ld ("common." ++ m ++ "." ++ c) = none → ∀ v,
      dict_get ld (a ++ "." ++ c) = some v →
      lib_to_instance dsc c scope ld od = .ok v) ∧
    (dict_get od.classes c = none →
      dict_get ld (a ++ "." ++ m ++ "." ++ c) = none →
      dict_get ld ("common." ++ m ++ "." ++ c) = none →
      dict_get ld (a ++ "." ++ c) = none → ∀ v,
      dict_get ld ("common." ++ c) = some v →
      lib_to_instance dsc c scope ld od = .ok v) := by
  unfold lib_to_instance
  rw [hs]
  refine ⟨?_, ?_, ?_, ?_, ?_⟩ <;> intros <;> simp_all

/-- Witness for C1: all four scoped keys plus an override are present and
the override wins; with the override absent, the ARCH.MODULETYPE key wins. -/
theorem lib_to_instance_priority_chain_witness :
    lib_to_instance "P.dsc" "cls" "ia32.peim"
      [("ia32.peim.cls", "L1.inf"), ("common.peim.cls", "L2.inf"),
       ("ia32.cls", "L3.inf"), ("common.cls", "L4.inf")]
      ⟨[("cls", "L0.inf")], []⟩ = .ok "L0.inf" ∧
    lib_to_instance "P.dsc" "cls" "ia32.peim"
      [("ia32.peim.cls", "L1.inf"), ("common.peim.cls", "L2.inf"),
       ("ia32.cls", "L3.inf"), ("common.cls", "L4.inf")]
      ⟨[], []⟩ = .ok "L1.inf" := by
  constructor
  · exact (lib_to_instance_priority_chain "P.dsc" "cls" "ia32.peim" "ia32" "peim"
      [("ia32.peim.cls", "L1.inf"), ("common.peim.cls", "L2.inf"),
       ("ia32.cls", "L3.inf"), ("common.cls", "L4.inf")]
      ⟨[("cls", "L0.inf")], []⟩ (by decide)).1 "L0.inf" (by decide)
  · exact (lib_to_instance_priority_chain "P.dsc" "cls" "ia32.peim" "ia32" "peim"
      [("ia32.peim.cls", "L1.inf"), ("common.peim.cls", "L2.inf"),
       ("ia32.cls", "L3.inf"), ("common.cls", "L4.inf")]
      ⟨[], []⟩ (by decide)).2.1 (by decide) "L1.inf" (by decide)

/-! ## C8: required construction keys -/

/-- C8: constructing an InstancedInfTable from an env mapping missing
ACTIVE_PLATFORM, TARGET_ARCH or TARGET raises a KeyError naming the key at
construction time (the constructor is a separate step that runs before
parse ever can); FLASH_DEFINITION is optional and its absence does not
raise — with the three required keys present construction succeeds and the
missing flash path defaults to "". -/
theorem init_requires_platform_arch_target :
    (∀ fd ta tg, instanced_inf_table_init ⟨none, fd, ta, tg⟩ =
      .error (.keyError "ACTIVE_PLATFORM")) ∧
    (∀ ap fd tg, instanced_inf_table_init ⟨some ap, fd, none, tg⟩ =
      .error (.keyError "TARGET_ARCH")) ∧
    (∀ ap fd ta, instanced_inf_table_init ⟨some ap, fd, some ta, none⟩ =
      .error (.keyError "TARGET")) ∧
    (∀ ap fd ta tg, instanced_inf_table_init ⟨some ap, fd, some ta, some tg⟩ =
      .ok ⟨ap, fd.getD "", split_on_char ' ' ta, tg⟩) := by
  refine ⟨?_, ?_, ?_, ?_⟩ <;> intros <;> rfl

/-! ## C10: relativization touches only PATH -/

/-- C10: the path rewrite in InstancedInfTable.parse applies only to each
entry's PATH field — an absolute PATH is replaced by its package-relative
form while DSC, NAME, ARCH, SOURCES_USED, LIBRARIES_USED and in particular
the COMPONENT column are kept exactly as built (the owning component's
declared path in posix form, even when absolute). Consequently, for a
component declared with an absolute path, the component's own row has a
relativized path column while its library rows keep the absolute posix
path in their component column, so the two disagree in form. -/
theorem relativize_rewrites_only_path :
    (∀ (rel : String → String) (e : Entry),
      (relativize_entry rel e).COMPONENT = e.COMPONENT ∧
      (relativize_entry rel e).DSC = e.DSC ∧
      (relativize_entry rel e).NAME = e.NAME ∧
      (relativize_entry rel e).ARCH = e.ARCH ∧
      (relativize_entry rel e).SOURCES_USED = e.SOURCES_USED ∧
      (relativize_entry rel e).LIBRARIES_USED = e.LIBRARIES_USED ∧
      (relativize_entry rel e).PATH =
        (if is_absolute e.PATH then rel e.PATH else e.PATH)) ∧
    ((relativize_entry (fun _ => "Pkg/C.inf")
        ⟨"P.dsc", "/ws/Pkg/C.inf", "", "C", none, "DXE_DRIVER", "COMMON", [], [], []⟩).PATH =
      "Pkg/C.inf" ∧
     (relativize_entry (fun _ => "Pkg/C.inf")
        ⟨"P.dsc", "L.inf", "", "L", some "/ws/Pkg/C.inf", "BASE", "COMMON", [], [], []⟩).COMPONENT =
      some "/ws/Pkg/C.inf") := by
  constructor
  · intro rel e
    unfold relativize_entry
    split <;> simp_all
  · constructor <;> decide

/-! ## C9: orchestration order -/

/-- The create_tables pass emits one event per generator, in registration
order. -/
theorem run_create_tables_events :
    ∀ (gens : List TableGen) (i : Nat) (db : DBState),
      (run_create_tables gens i db).2 = (List.range' i gens.length).map Event.create_tables := by
  intro gens
  induction gens with
  | nil => intro i db; rfl
  | cons g rest ih =>
    intro i db
    simp [run_create_tables, ih, List.range']

/-- When no generator fails, the population pass emits parse-then-commit
for each generator, in registration order. -/
theorem run_parsers_events :
    ∀ (gens : List TableGen) (i : Nat) (c : Conn),
      (run_parsers gens i c).2.2 = none →
      (run_parsers gens i c).2.1 =
        (List.range' i gens.length).flatMap (fun j => [Event.parse_gen j, Event.commit j]) := by
  intro gens
  induction gens with
  | nil => intro i c _; rfl
  | cons g rest ih =>
    intro i c h
    cases hp : g.parse c.pending with
    | mk d err =>
      cases err with
      | some e => simp [run_parsers, hp] at h
      | none =>
        simp only [run_parsers, hp] at h ⊢
        rw [ih (i + 1) ⟨d, d⟩ h]
        simp [List.range']

/-- C9: Edk2DB.parse first ensures the junction table exists, then calls
create_tables on every registered generator in registration order, then
parses each generator in registration order with a commit immediately
after each one — the event trace of a run where every generator succeeds
is exactly that sequence. -/
theorem edk2db_parse_event_order (gens : List TableGen) (c : Conn)
    (h : (edk2db_parse gens c).2.2 = none) :
    (edk2db_parse gens c).2.1 =
      Event.ensure_junction ::
        ((List.range gens.length).map Event.create_tables ++
         (List.range gens.length).flatMap (fun i => [Event.parse_gen i, Event.commit i])) := by
  unfold edk2db_parse at h ⊢
  simp only [] at h ⊢
  rw [run_create_tables_events, run_parsers_events gens 0 _ h, List.range_eq_range']

/-- Witness for C9: two trivial generators that both succeed produce the
trace junction-create, create 0, create 1, parse 0, commit 0, parse 1,
commit 1. -/
theorem edk2db_parse_event_order_witness :
    (edk2db_parse
        [⟨fun db => db, fun db => (db, none)⟩, ⟨fun db => db, fun db => (db, none)⟩]
        ⟨⟨[], [], [], [], 1⟩, ⟨[], [], [], [], 1⟩⟩).2.1 =
      Event.ensure_junction ::
        ((List.range 2).map Event.create_tables ++
         (List.range 2).flatMap (fun i => [Event.parse_gen i, Event.commit i])) :=
  edk2db_parse_event_order
    [⟨fun db => db, fun db => (db, none)⟩, ⟨fun db => db, fun db => (db, none)⟩]
    ⟨⟨[], [], [], [], 1⟩, ⟨[], [], [], [], 1⟩⟩ rfl

/-! ## C7: error propagation and the unconditional commit in __exit__ -/

/-- C7 counterexample: a run with two generators where the second inserts
a junction row and then raises. Edk2DB.parse propagates the error and does
not commit the failing generator's writes — but Edk2DB.__exit__ commits
unconditionally, so when the context manager exits because of the error
the failing generator's uncommitted row becomes durable. This refutes the
claim that the failing generator's work "is never committed, including
when the Edk2DB context manager exits due to the error". -/
theorem failing_generator_work_committed_on_exit :
    (edk2db_parse
        [⟨fun db => db, fun db => (insert_junction ⟨"a", .str "a", "a", .str "a"⟩ db, none)⟩,
         ⟨fun db => db,
          fun db => (insert_junction ⟨"b", .str "b", "b", .str "b"⟩ db,
            some (.runtimeError "boom"))⟩]
        ⟨⟨[], [(1, 0)], [], [], 1⟩, ⟨[], [(1, 0)], [], [], 1⟩⟩).2.2 =
      some (.runtimeError "boom") ∧
    (⟨"b", .str "b", "b", .str "b"⟩ : JunctionRow) ∉
      (edk2db_parse
        [⟨fun db => db, fun db => (insert_junction ⟨"a", .str "a", "a", .str "a"⟩ db, none)⟩,
         ⟨fun db => db,
          fun db => (insert_junction ⟨"b", .str "b", "b", .str "b"⟩ db,
            some (.runtimeError "boom"))⟩]
        ⟨⟨[], [(1, 0)], [], [], 1⟩, ⟨[], [(1, 0)], [], [], 1⟩⟩).1.committed.junction ∧
    (⟨"b", .str "b", "b", .str "b"⟩ : JunctionRow) ∈
      (edk2db_exit (edk2db_parse
        [⟨fun db => db, fun db => (insert_junction ⟨"a", .str "a", "a", .str "a"⟩ db, none)⟩,
         ⟨fun db => db,
          fun db => (insert_junction ⟨"b", .str "b", "b", .str "b"⟩ db,
            some (.runtimeError "boom"))⟩]
        ⟨⟨[], [(1, 0)], [], [], 1⟩, ⟨[], [(1, 0)], [], [], 1⟩⟩).1).junction := by
  refine ⟨rfl, by decide, by decide⟩

/-- C7 (amended): when a generator's parse raises, the error propagates
out of the population loop, the connection's committed state — everything
earlier generators committed — is left intact (no rollback) and the later
generators never run; the failing generator's writes stay pending,
uncommitted by parse itself. However, Edk2DB.__exit__ commits
unconditionally, so on context-manager exit the pending state — including
any writes the failing generator made before raising — becomes durable. -/
theorem failing_generator_amended
    (g : TableGen) (rest : List TableGen) (i : Nat) (c : Conn) (d : DBState) (e : PyErr)
    (h : g.parse c.pending = (d, some e)) :
    run_parsers (g :: rest) i c = (⟨c.committed, d⟩, [.parse_gen i], some e) ∧
    edk2db_exit ⟨c.committed, d⟩ = d := by
  refine ⟨?_, rfl⟩
  simp [run_parsers, h]

/-- Witness for C7 (amended): a single generator that writes one junction
row and raises: the committed state stays empty, the event trace holds no
commit, the error propagates, and exit makes the written row durable. -/
theorem failing_generator_amended_witness :
    run_parsers
        [⟨fun db => db,
          fun db => (insert_junction ⟨"b", .str "b", "b", .str "b"⟩ db,
            some (.runtimeError "boom"))⟩] 0
        ⟨⟨[], [], [], [], 1⟩, ⟨[], [], [], [], 1⟩⟩ =
      (⟨⟨[], [], [], [], 1⟩,
        insert_junction ⟨"b", .str "b", "b", .str "b"⟩ ⟨[], [], [], [], 1⟩⟩,
       [.parse_gen 0], some (.runtimeError "boom")) ∧
    edk2db_exit
        ⟨⟨[], [], [], [], 1⟩,
         insert_junction ⟨"b", .str "b", "b", .str "b"⟩ ⟨[], [], [], [], 1⟩⟩ =
      insert_junction ⟨"b", .str "b", "b", .str "b"⟩ ⟨[], [], [], [], 1⟩ :=
  failing_generator_amended
    ⟨fun db => db,
     fun db => (insert_junction ⟨"b", .str "b", "b", .str "b"⟩ db,
       some (.runtimeError "boom"))⟩
    [] 0 ⟨⟨[], [], [], [], 1⟩, ⟨[], [], [], [], 1⟩⟩
    (insert_junction ⟨"b", .str "b", "b", .str "b"⟩ ⟨[], [], [], [], 1⟩)
    (.runtimeError "boom") rfl

/-! ## C2: unresolved library class is fatal -/

/-- C2: when a needed library-class name matches none of the five
priority-chain lookups for its scope, resolution raises a RuntimeError
whose message names the library class, the scope string and the
platform-description file (conjunct 1), and the failure is never absorbed
anywhere on its way out: it propagates out of the class-resolution loop
from any position after any prefix of successful resolutions (conjunct 2),
out of a node's expansion (conjunct 3), out of the visit loop at any
unvisited node (conjunct 4), and out of the component loop past any prefix
of components that already built their entries (conjunct 5) — no fallback
and no silent skip at any level. Finally, whenever building the entry list
fails with any error, for any component list and any failure position,
InstancedInfTable.parse returns the database exactly as it was given along
with that error (conjunct 6): the error is raised before any insertion, so
zero instanced-module rows for the platform description exist to be
committed. -/
theorem unresolved_library_class_is_fatal :
    (∀ (dsc c scope a m : String) (ld : List (String × String)) (od : OverrideDict),
      split_on_char '.' scope = [a, m] →
      dict_get od.classes c = none →
      dict_get ld (a ++ "." ++ m ++ "." ++ c) = none →
      dict_get ld ("common." ++ m ++ "." ++ c) = none →
      dict_get ld (a ++ "." ++ c) = none →
      dict_get ld ("common." ++ c) = none →
      lib_to_instance dsc c scope ld od =
        .error (.runtimeError (lib_error_msg c scope dsc))) ∧
    (∀ (dsc scope : String) (ld : List (String × String)) (od : OverrideDict)
      (pre : List String) (lib : String) (post : List String) (e : PyErr),
      (∀ x ∈ pre, ∃ v, lib_to_instance dsc (lib_class_key x) scope ld od = .ok v) →
      lib_to_instance dsc (lib_class_key lib) scope ld od = .error e →
      resolve_classes dsc scope ld od (pre ++ lib :: post) = .error e) ∧
    (∀ (infs : String → InfDecl) (dsc : String) (fuel : Nat) (inf component : String)
      (ld : List (String × String)) (od : OverrideDict) (scope : String)
      (visited : List String) (e : PyErr),
      resolve_classes dsc scope ld od (infs inf).libraries = .error e →
      parse_inf_recursively infs dsc (fuel + 1) inf component ld od scope visited =
        .error e) ∧
    (∀ (parseF : String → List String → Except PyErr (List Entry × List String))
      (l : String) (rest : List String) (acc : List Entry) (visited : List String)
      (e : PyErr),
      l ∉ visited → parseF l visited = .error e →
      visit_loop parseF (l :: rest) acc visited = .error e) ∧
    (∀ (infs : String → InfDecl) (dsc : String) (fuel : Nat)
      (ld : List (String × String)) (pre : List Component) (c : Component)
      (post : List Component) (es : List Entry) (e : PyErr),
      build_components infs dsc fuel ld pre = .ok es →
      (infs c.inf).library_class = none →
      parse_inf_recursively infs dsc fuel c.inf c.inf ld c.overrides
        (component_scope infs c) [] = .error e →
      build_components infs dsc fuel ld (pre ++ c :: post) = .error e) ∧
    (∀ (infs : String → InfDecl) (rel : String → String) (t : InstancedInfTable)
      (fuel : Nat) (comps : List Component) (ld : List (String × String))
      (db : DBState) (err : PyErr),
      build_inf_table infs t.dsc fuel ld comps = .error err →
      instanced_inf_parse infs rel t fuel comps ld db = (db, some err)) := by
  refine ⟨?_, ?_, ?_, ?_, ?_, ?_⟩
  · intro dsc c scope a m ld od hs h1 h2 h3 h4 h5
    unfold lib_to_instance
    rw [hs]
    simp [h1, h2, h3, h4, h5]
  · intro dsc scope ld od pre
    induction pre with
    | nil =>
      intro lib post e _ hfail
      simp only [List.nil_append]
      unfold resolve_classes
      rw [hfail]
    | cons x pre' ih =>
      intro lib post e hpre hfail
      obtain ⟨v, hv⟩ := hpre x (List.mem_cons_self _ _)
      simp only [List.cons_append]
      unfold resolve_classes
      rw [hv, ih lib post e (fun y hy => hpre y (List.mem_cons_of_mem _ hy)) hfail]
  · intro infs dsc fuel inf component ld od scope visited e hres
    simp only [parse_inf_recursively, hres]
  · intro parseF l rest acc visited e hmem hfail
    unfold visit_loop
    rw [if_neg hmem, hfail]
  · intro infs dsc fuel ld pre
    induction pre with
    | nil =>
      intro c post es e _ hlc hfail
      simp only [List.nil_append]
      unfold build_components
      simp only [hlc, Option.isSome_none, Bool.false_eq_true, if_false]
      rw [hfail]
    | cons p pre' ih =>
      intro c post es e hpre hlc hfail
      simp only [List.cons_append]
      unfold build_components at hpre ⊢
      cases hx : (infs p.inf).library_class with
      | some v =>
        simp only [hx, Option.isSome_some, if_true] at hpre ⊢
        exact ih c post es e hpre hlc hfail
      | none =>
        simp only [hx, Option.isSome_none, Bool.false_eq_true, if_false] at hpre ⊢
        cases hp : parse_inf_recursively infs dsc fuel p.inf p.inf ld p.overrides
            (component_scope infs p) [] with
        | error e2 => rw [hp] at hpre; exact absurd hpre (by simp)
        | ok pr =>
          obtain ⟨rows, vis⟩ := pr
          rw [hp] at hpre
          cases hb : build_components infs dsc fuel ld pre' with
          | error e2 => rw [hb] at hpre; exact absurd hpre (by simp)
          | ok more =>
            rw [ih c post more e hb hlc hfail]
  · intro infs rel t fuel comps ld db err hb
    unfold instanced_inf_parse
    rw [hb]

/-- The two-component workspace whose SECOND component fails: C1 resolves
and expands fully; C2's first class ClsA resolves, its second class ClsB
resolves to LibB.inf, and LibB.inf transitively needs ClsMissing, which no
scope level maps. -/
def fail2_infs : String → InfDecl := fun p =>
  if p = "C1.inf" then ⟨none, some "DXE_DRIVER", some "C1", none, ["ClsA"], [], []⟩
  else if p = "C2.inf" then ⟨none, some "DXE_DRIVER", some "C2", none, ["ClsA", "ClsB"], [], []⟩
  else if p = "LibA.inf" then ⟨some "ClsA", some "BASE", some "LibA", none, [], [], []⟩
  else ⟨some "ClsB", some "BASE", some "LibB", none, ["ClsMissing"], [], []⟩

/-- The scoped library map of the failing workspace (ClsMissing absent). -/
def fail2_ld : List (String × String) :=
  [("common.clsa", "LibA.inf"), ("common.clsb", "LibB.inf")]

/-- The component declarations of the failing workspace. -/
def fail2_comps : List Component :=
  [⟨"C1.inf", "common", ⟨[], []⟩⟩, ⟨"C2.inf", "common", ⟨[], []⟩⟩]

/-- The configured generator for the failing workspace. -/
def fail2_table : InstancedInfTable := ⟨"P.dsc", "", ["X64"], "DEBUG"⟩

/-- The starting database for the failing workspace. -/
def fail2_db0 : DBState := ⟨["junction", "instanced_inf"], [(1, 0)], [], [], 1⟩

/-- The entries the first component alone would build. -/
def fail2_c1_entries : List Entry :=
  match build_components fail2_infs "P.dsc" 10 fail2_ld [⟨"C1.inf", "common", ⟨[], []⟩⟩] with
  | .ok es => es
  | .error _ => []

/-- Witness for C2: the first component alone builds two entries, yet the
unresolved class reached transitively inside the SECOND component makes
the whole parse return the untouched database together with the
RuntimeError naming the class (clsmissing), the scope
(common.dxe_driver) and the platform-description file (P.dsc) — zero
rows inserted despite the earlier component's successfully built
entries. -/
theorem unresolved_library_class_is_fatal_witness :
    build_components fail2_infs "P.dsc" 10 fail2_ld [⟨"C1.inf", "common", ⟨[], []⟩⟩] =
      .ok fail2_c1_entries ∧
    fail2_c1_entries.length = 2 ∧
    instanced_inf_parse fail2_infs (fun p => p) fail2_table 10 fail2_comps fail2_ld
      fail2_db0 =
      (fail2_db0, some (.runtimeError
        (lib_error_msg "clsmissing" "common.dxe_driver" "P.dsc"))) :=
  ⟨rfl, rfl,
   unresolved_library_class_is_fatal.2.2.2.2.2 fail2_infs (fun p => p) fail2_table 10
     fail2_comps fail2_ld fail2_db0
     (.runtimeError (lib_error_msg "clsmissing" "common.dxe_driver" "P.dsc")) rfl⟩

end Edk2
